import Mathlib

/-!
Verification of the call-spacing serializer of
`src/mastra/processors/example-input.processors.ts`
(class `ExampleInputProcessor` and the module-level cursor
`nextAvailableTime`, reset by `resetRateLimitTimestamp`).

Shallow embedding conventions:
* timestamps and millisecond durations are `Int` (values of `Date.now()`
  and the configured `delayMs` / `jitterMs`);
* the fresh `Math.random()` draw of each call is an explicit rational
  argument `r` (the runtime guarantees `0 ≤ r < 1`);
* the shared mutable cursor `nextAvailableTime` is threaded explicitly:
  a call is a pure function from (cursor, now, draw) to a `SlotResult`
  that records the locals of `processInput` and the new cursor value.
-/

namespace RateLimit

/-- The configuration stored on an `ExampleInputProcessor` instance:
the private readonly fields `delayMs` and `jitterMs`. -/
structure Config where
  delayMs : Int
  jitterMs : Int
deriving Repr, DecidableEq

/-- The constructor argument `ExampleInputProcessorOptions`: both fields
are optional (`delayMs?`, `jitterMs?`). -/
structure ProcessorOptions where
  delayMs : Option Int
  jitterMs : Option Int
deriving Repr, DecidableEq

/-- The constructor body (source lines 72–75):
`this.delayMs = options.delayMs ?? 500; this.jitterMs = options.jitterMs ?? 1000`.
The body contains no validation and no throw; we model the construction
outcome as `Except` so that rejection (a thrown error) would be
representable, and the faithful translation always returns `Except.ok`. -/
def mkExampleInputProcessor (o : ProcessorOptions) : Except String Config :=
  Except.ok ⟨o.delayMs.getD 500, o.jitterMs.getD 1000⟩

/-- `getJitter()` (source lines 110–115): returns `0` when
`this.jitterMs <= 0`, otherwise `Math.floor(Math.random() * this.jitterMs)`
where the random draw `r` satisfies `0 ≤ r < 1`. -/
def getJitter (cfg : Config) (r : ℚ) : Int :=
  if cfg.jitterMs ≤ 0 then 0
  else ⌊r * (cfg.jitterMs : ℚ)⌋

/-- The locals of one `processInput` call together with the value the
shared cursor holds after the synchronous reservation step. -/
structure SlotResult where
  myStartTime : Int
  effectiveDelay : Int
  nextAvailableTime : Int
  waitTime : Int
deriving Repr, DecidableEq

/-- The reservation logic of `processInput` (source lines 86–99):
`effectiveDelay = delayMs + getJitter()`;
`myStartTime = max(now, nextAvailableTime)`;
`nextAvailableTime = myStartTime + effectiveDelay` (the new cursor);
`waitTime = myStartTime - now`. -/
def reserveSlot (cfg : Config) (cursor now : Int) (r : ℚ) : SlotResult :=
  let effectiveDelay := cfg.delayMs + getJitter cfg r
  let myStartTime := max now cursor
  let nextAvailableTime := myStartTime + effectiveDelay
  let waitTime := myStartTime - now
  ⟨myStartTime, effectiveDelay, nextAvailableTime, waitTime⟩

/-- The whole of `processInput({ messages })` (source lines 85–105): it
performs the reservation on the shared cursor, waits, and returns the
`messages` argument itself. Result: (returned messages, new cursor). -/
def processInput {α : Type} (cfg : Config) (cursor now : Int) (r : ℚ)
    (messages : List α) : List α × Int :=
  (messages, (reserveSlot cfg cursor now r).nextAvailableTime)

/-- `resetRateLimitTimestamp()` (source lines 126–128): the value the
shared cursor holds after a reset. -/
def resetRateLimitTimestamp : Int := 0

/-- A sequence of calls whose synchronous reservation steps execute in
list order, threading the shared cursor: each call is a pair
(its `Date.now()` value, its random draw). -/
def runCalls (cfg : Config) (cursor : Int) : List (Int × ℚ) → List SlotResult
  | [] => []
  | c :: rest =>
    let res := reserveSlot cfg cursor c.1 c.2
    res :: runCalls cfg res.nextAvailableTime rest

theorem getJitter_nonneg (cfg : Config) (r : ℚ) (hr : 0 ≤ r) :
    0 ≤ getJitter cfg r := by
  unfold getJitter
  split
  · exact le_refl 0
  · rename_i h
    have hj : (0 : ℚ) < (cfg.jitterMs : ℚ) := by
      exact_mod_cast lt_of_not_le h
    exact Int.floor_nonneg.mpr (mul_nonneg hr (le_of_lt hj))

theorem getJitter_lt (cfg : Config) (r : ℚ) (h1 : r < 1)
    (hj : 0 < cfg.jitterMs) : getJitter cfg r < cfg.jitterMs := by
  unfold getJitter
  rw [if_neg (not_le.mpr hj)]
  apply Int.floor_lt.mpr
  have hjq : (0 : ℚ) < (cfg.jitterMs : ℚ) := by exact_mod_cast hj
  calc r * (cfg.jitterMs : ℚ) < 1 * (cfg.jitterMs : ℚ) :=
        mul_lt_mul_of_pos_right h1 hjq
    _ = (cfg.jitterMs : ℚ) := one_mul _

theorem reserveSlot_myStartTime (cfg : Config) (cursor now : Int) (r : ℚ) :
    (reserveSlot cfg cursor now r).myStartTime = max now cursor := rfl

theorem reserveSlot_next (cfg : Config) (cursor now : Int) (r : ℚ) :
    (reserveSlot cfg cursor now r).nextAvailableTime =
      max now cursor + (cfg.delayMs + getJitter cfg r) := rfl

theorem runCalls_head_ge (cfg : Config) (cursor : Int)
    (calls : List (Int × ℚ)) :
    ∀ b ∈ (runCalls cfg cursor calls).head?, cursor ≤ b.myStartTime := by
  cases calls with
  | nil => intro b hb; simp [runCalls] at hb
  | cons c rest =>
    intro b hb
    simp [runCalls] at hb
    rw [← hb, reserveSlot_myStartTime]
    exact le_max_right _ _

/-- C1. Spacing invariant: along any sequence of calls whose synchronous
reservation steps execute in list order, with non-negative `delayMs` and
non-negative random draws, each call's committed `myStartTime` is at least
the previous call's `myStartTime` plus the previous call's
`effectiveDelay`, and hence at least the previous `myStartTime + delayMs`. -/
theorem spacing_invariant (cfg : Config) (_hd : 0 ≤ cfg.delayMs)
    (cursor : Int) (calls : List (Int × ℚ)) (hr : ∀ c ∈ calls, 0 ≤ c.2) :
    List.Chain'
      (fun a b => a.myStartTime + a.effectiveDelay ≤ b.myStartTime ∧
        a.myStartTime + cfg.delayMs ≤ b.myStartTime)
      (runCalls cfg cursor calls) := by
  induction calls generalizing cursor with
  | nil => simp [runCalls]
  | cons c rest ih =>
    have hrc : 0 ≤ c.2 := hr c (List.mem_cons_self c rest)
    have hrest : ∀ x ∈ rest, 0 ≤ x.2 := fun x hx => hr x (List.mem_cons_of_mem c hx)
    rw [runCalls]
    apply List.chain'_cons'.mpr
    constructor
    · intro b hb
      have hc := runCalls_head_ge cfg
        (reserveSlot cfg cursor c.1 c.2).nextAvailableTime rest b hb
      have hnext : (reserveSlot cfg cursor c.1 c.2).nextAvailableTime =
          (reserveSlot cfg cursor c.1 c.2).myStartTime +
            (reserveSlot cfg cursor c.1 c.2).effectiveDelay := rfl
      constructor
      · rw [hnext] at hc; exact hc
      · have hjit : cfg.delayMs ≤ (reserveSlot cfg cursor c.1 c.2).effectiveDelay := by
          have := getJitter_nonneg cfg c.2 hrc
          show cfg.delayMs ≤ cfg.delayMs + getJitter cfg c.2
          omega
        rw [hnext] at hc
        omega
    · exact ih (reserveSlot cfg cursor c.1 c.2).nextAvailableTime hrest

theorem spacing_invariant_witness :
    (0 : Int) ≤ (2000 : Int) ∧
    (∀ c ∈ [((5 : Int), (0 : ℚ)), ((5 : Int), (0 : ℚ)), ((5 : Int), (0 : ℚ))], 0 ≤ c.2) ∧
    List.Chain'
      (fun a b => a.myStartTime + a.effectiveDelay ≤ b.myStartTime ∧
        a.myStartTime + (2000 : Int) ≤ b.myStartTime)
      (runCalls ⟨2000, 0⟩ 0 [(5, 0), (5, 0), (5, 0)]) :=
  ⟨by norm_num, by intro c hc; fin_cases hc <;> norm_num,
   spacing_invariant ⟨2000, 0⟩ (by norm_num) 0 _
     (by intro c hc; fin_cases hc <;> norm_num)⟩

theorem reserveSlot_waitTime (cfg : Config) (cursor now : Int) (r : ℚ) :
    (reserveSlot cfg cursor now r).waitTime = max now cursor - now := rfl

theorem reserveSlot_effectiveDelay (cfg : Config) (cursor now : Int) (r : ℚ) :
    (reserveSlot cfg cursor now r).effectiveDelay =
      cfg.delayMs + getJitter cfg r := rfl

theorem getJitter_of_nonpos (cfg : Config) (r : ℚ) (h : cfg.jitterMs ≤ 0) :
    getJitter cfg r = 0 := by
  unfold getJitter; rw [if_pos h]

/-- C2. Concrete scenario: with `delayMs = 2000`, `jitterMs = 0`, three
calls at the same instant `t0`, reserving in order A, B, C against a
cursor `c0 ≤ t0`, get wait durations 0, 2000, 4000 and start times
`t0`, `t0 + 2000`, `t0 + 4000`. -/
theorem three_simultaneous_calls (t0 c0 : Int) (h : c0 ≤ t0) (r1 r2 r3 : ℚ) :
    (runCalls ⟨2000, 0⟩ c0 [(t0, r1), (t0, r2), (t0, r3)]).map
        SlotResult.waitTime = [0, 2000, 4000] ∧
    (runCalls ⟨2000, 0⟩ c0 [(t0, r1), (t0, r2), (t0, r3)]).map
        SlotResult.myStartTime = [t0, t0 + 2000, t0 + 4000] := by
  have hj1 := getJitter_of_nonpos ⟨2000, 0⟩ r1 (by norm_num)
  have hj2 := getJitter_of_nonpos ⟨2000, 0⟩ r2 (by norm_num)
  have hj3 := getJitter_of_nonpos ⟨2000, 0⟩ r3 (by norm_num)
  simp [runCalls, reserveSlot, hj1, hj2, hj3]
  omega

theorem three_simultaneous_calls_witness :
    (runCalls ⟨2000, 0⟩ 0 [((7 : Int), (0 : ℚ)), (7, 0), (7, 0)]).map
        SlotResult.waitTime = [0, 2000, 4000] ∧
    (runCalls ⟨2000, 0⟩ 0 [((7 : Int), (0 : ℚ)), (7, 0), (7, 0)]).map
        SlotResult.myStartTime = [7, 7 + 2000, 7 + 4000] :=
  three_simultaneous_calls 7 0 (by norm_num) 0 0 0

/-- C3. Non-decreasing cursor: with the configured `delayMs` non-negative
(as the data model requires) and a non-negative random draw, the shared
`nextAvailableTime` cursor after a `reserveSlot` call is at least its
value before the call; only `resetRateLimitTimestamp` rewinds it. -/
theorem cursor_nondecreasing (cfg : Config) (hd : 0 ≤ cfg.delayMs)
    (cursor now : Int) (r : ℚ) (hr : 0 ≤ r) :
    cursor ≤ (reserveSlot cfg cursor now r).nextAvailableTime := by
  have hj := getJitter_nonneg cfg r hr
  rw [reserveSlot_next]
  have hm := le_max_right now cursor
  omega

theorem cursor_nondecreasing_witness :
    (7 : Int) ≤ (reserveSlot ⟨500, 1000⟩ 7 3 (1/2)).nextAvailableTime :=
  cursor_nondecreasing ⟨500, 1000⟩ (by norm_num) 7 3 (1/2) (by norm_num)

/-- C5. Jitter bound: with the fresh draw `r ∈ [0, 1)`, `getJitter` lies
in `[0, jitterMs)` when `jitterMs > 0` and equals 0 when `jitterMs = 0`;
with `jitterMs = 0` the reservation result does not depend on the draw. -/
theorem jitter_bound (cfg : Config) (cursor now : Int) (r : ℚ)
    (h0 : 0 ≤ r) (h1 : r < 1) :
    (0 < cfg.jitterMs → 0 ≤ getJitter cfg r ∧ getJitter cfg r < cfg.jitterMs) ∧
    (cfg.jitterMs = 0 → getJitter cfg r = 0) ∧
    (cfg.jitterMs = 0 →
      ∀ r2 : ℚ, reserveSlot cfg cursor now r = reserveSlot cfg cursor now r2) := by
  refine ⟨fun hj => ⟨getJitter_nonneg cfg r h0, getJitter_lt cfg r h1 hj⟩, ?_, ?_⟩
  · intro hz; exact getJitter_of_nonpos cfg r (le_of_eq hz)
  · intro hz r2
    unfold reserveSlot
    rw [getJitter_of_nonpos cfg r (le_of_eq hz),
      getJitter_of_nonpos cfg r2 (le_of_eq hz)]

theorem jitter_bound_witness :
    (0 < (100 : Int) → 0 ≤ getJitter ⟨500, 100⟩ (1/2) ∧
      getJitter ⟨500, 100⟩ (1/2) < 100) ∧
    ((100 : Int) = 0 → getJitter ⟨500, 100⟩ (1/2) = 0) ∧
    ((100 : Int) = 0 → ∀ r2 : ℚ,
      reserveSlot ⟨500, 100⟩ 0 3 (1/2) = reserveSlot ⟨500, 100⟩ 0 3 r2) :=
  jitter_bound ⟨500, 100⟩ 0 3 (1/2) (by norm_num) (by norm_num)

/-- C6. Reset behavior: after `resetRateLimitTimestamp` the cursor is 0,
and a call with `now = t0 ≥` the reset cursor waits 0; concretely with
`delayMs = 500`, `jitterMs = 100`: `myStartTime = t0`, `waitTime = 0`,
new cursor `t0 + 500 + jitter` with the jitter in `[0, 100)`. -/
theorem reset_behavior (cfg : Config) (t0 : Int)
    (h : resetRateLimitTimestamp ≤ t0) (r : ℚ) (h0 : 0 ≤ r) (h1 : r < 1) :
    (reserveSlot cfg resetRateLimitTimestamp t0 r).waitTime = 0 ∧
    (reserveSlot ⟨500, 100⟩ resetRateLimitTimestamp t0 r).myStartTime = t0 ∧
    (reserveSlot ⟨500, 100⟩ resetRateLimitTimestamp t0 r).waitTime = 0 ∧
    (reserveSlot ⟨500, 100⟩ resetRateLimitTimestamp t0 r).nextAvailableTime
      = t0 + 500 + getJitter ⟨500, 100⟩ r ∧
    0 ≤ getJitter ⟨500, 100⟩ r ∧ getJitter ⟨500, 100⟩ r < 100 := by
  unfold resetRateLimitTimestamp at h ⊢
  refine ⟨?_, ?_, ?_, ?_, getJitter_nonneg _ r h0, getJitter_lt _ r h1 (by norm_num)⟩
  · rw [reserveSlot_waitTime]; omega
  · rw [reserveSlot_myStartTime]; omega
  · rw [reserveSlot_waitTime]; omega
  · rw [reserveSlot_next]
    show max t0 0 + ((500 : Int) + getJitter ⟨500, 100⟩ r)
      = t0 + 500 + getJitter ⟨500, 100⟩ r
    omega

theorem reset_behavior_witness :
    (reserveSlot ⟨2000, 0⟩ resetRateLimitTimestamp 9 (1/2)).waitTime = 0 ∧
    (reserveSlot ⟨500, 100⟩ resetRateLimitTimestamp 9 (1/2)).myStartTime = 9 ∧
    (reserveSlot ⟨500, 100⟩ resetRateLimitTimestamp 9 (1/2)).waitTime = 0 ∧
    (reserveSlot ⟨500, 100⟩ resetRateLimitTimestamp 9 (1/2)).nextAvailableTime
      = 9 + 500 + getJitter ⟨500, 100⟩ (1/2) ∧
    0 ≤ getJitter ⟨500, 100⟩ (1/2) ∧ getJitter ⟨500, 100⟩ (1/2) < 100 :=
  reset_behavior ⟨2000, 0⟩ 9 (by norm_num [resetRateLimitTimestamp])
    (1/2) (by norm_num) (by norm_num)

/-- C7. The wait duration equals `max 0 (myStartTime - now)`, is never
negative, and is exactly 0 whenever `now ≥` the cursor (idle caller). -/
theorem wait_is_clamped (cfg : Config) (cursor now : Int) (r : ℚ) :
    (reserveSlot cfg cursor now r).waitTime =
      max 0 ((reserveSlot cfg cursor now r).myStartTime - now) ∧
    0 ≤ (reserveSlot cfg cursor now r).waitTime ∧
    (cursor ≤ now → (reserveSlot cfg cursor now r).waitTime = 0) := by
  rw [reserveSlot_waitTime, reserveSlot_myStartTime]
  exact ⟨by omega, by omega, fun h => by omega⟩

theorem wait_is_clamped_witness :
    (reserveSlot ⟨500, 1000⟩ 2 5 0).waitTime =
      max 0 ((reserveSlot ⟨500, 1000⟩ 2 5 0).myStartTime - 5) ∧
    0 ≤ (reserveSlot ⟨500, 1000⟩ 2 5 0).waitTime ∧
    ((2 : Int) ≤ 5 → (reserveSlot ⟨500, 1000⟩ 2 5 0).waitTime = 0) :=
  wait_is_clamped ⟨500, 1000⟩ 2 5 0

/-- C8. Defaults: constructing with no options yields `delayMs = 500` and
`jitterMs = 1000`, and each omitted option independently falls back to
its default (the constructed defaults, not the doc-comment values). -/
theorem config_defaults :
    mkExampleInputProcessor ⟨none, none⟩ = Except.ok ⟨500, 1000⟩ ∧
    (∀ j : Int, mkExampleInputProcessor ⟨none, some j⟩ = Except.ok ⟨500, j⟩) ∧
    (∀ d : Int, mkExampleInputProcessor ⟨some d, none⟩ = Except.ok ⟨d, 1000⟩) :=
  ⟨rfl, fun _ => rfl, fun _ => rfl⟩

/-- C9. Frame property: `processInput` returns its `messages` argument
unchanged, and the only state it touches is the shared cursor, which it
sets to the reservation's `nextAvailableTime`. -/
theorem frame_property {α : Type} (cfg : Config) (cursor now : Int) (r : ℚ)
    (messages : List α) :
    (processInput cfg cursor now r messages).1 = messages ∧
    (processInput cfg cursor now r messages).2 =
      (reserveSlot cfg cursor now r).nextAvailableTime :=
  ⟨rfl, rfl⟩

/-- C10. With `jitterMs ≤ 0` (including negative values the constructor
accepts), `getJitter` returns exactly 0, so the effective delay is the
bare `delayMs` and jitter never contributes negatively. -/
theorem nonpositive_jitter_disabled (cfg : Config) (cursor now : Int) (r : ℚ)
    (h : cfg.jitterMs ≤ 0) :
    getJitter cfg r = 0 ∧
    (reserveSlot cfg cursor now r).effectiveDelay = cfg.delayMs := by
  have hz := getJitter_of_nonpos cfg r h
  exact ⟨hz, by rw [reserveSlot_effectiveDelay, hz, add_zero]⟩

theorem nonpositive_jitter_disabled_witness :
    getJitter ⟨500, -5⟩ (1/2) = 0 ∧
    (reserveSlot ⟨500, -5⟩ 0 3 (1/2)).effectiveDelay = 500 :=
  nonpositive_jitter_disabled ⟨500, -5⟩ 0 3 (1/2) (by norm_num)

/-- C4 counterexample: constructing with `delayMs = -1` and
`jitterMs = -1` is not rejected — the constructor succeeds and stores
the negative values as given. -/
theorem negative_config_not_rejected :
    mkExampleInputProcessor ⟨some (-1), some (-1)⟩ = Except.ok ⟨-1, -1⟩ := rfl

/-- C4 amended: the constructor performs no validation; any supplied
`delayMs` and `jitterMs`, negative values included, are accepted and
stored unchanged, with no error surfaced at construction time. -/
theorem construction_accepts_all_values (d j : Int) :
    mkExampleInputProcessor ⟨some d, some j⟩ = Except.ok ⟨d, j⟩ := rfl

end RateLimit
